import Mathlib

/-!
Verification development for the mud-client repository.

Shallow embedding of:
* `src/connection/TelnetClient.ts` — the telnet byte-stream parser
  (`handleData`, `handleNegotiation`), modelled at the byte level
  (bytes as `Nat`, emitted `data` events as byte lists; the
  `Buffer.toString("utf8")` decoding step is abstracted as the identity
  on byte content, which is faithful for the ASCII inputs considered
  and irrelevant to the event-sequence comparisons below).
* `src/messages/MessageClassifier.ts` — line classification with
  continuation tracking; compiled regular expressions are modelled as
  oracle functions (the regex engine is runtime library code, not code
  of this repository; the control flow around it is translated exactly).
* `src/panes/Pane.ts` and `src/panes/PaneManager.ts` — pane filters,
  message routing and the render-time truncation transform.
* `src/input/TabCompletion.ts` — the completion cycler.
-/

namespace MudClient

/-! ## Telnet parser (src/connection/TelnetClient.ts) -/

namespace Telnet

/-- Events produced by `handleData`: emitted `data` text (as bytes, after
CRLF normalization) and outgoing negotiation replies (`sendNegotiation`,
a 3-byte sequence). -/
inductive Event where
  | text : List Nat → Event
  | reply : List Nat → Event
deriving DecidableEq, Repr

/-- `normalizeLineEndings`: replace every complete CRLF (13,10) pair by a
single LF (10); a bare CR is left untouched. Mirrors
`text.replace(/\r\n/g, "\n")` at byte level. -/
def normalizeLineEndings : List Nat → List Nat
  | 13 :: 10 :: rest => 10 :: normalizeLineEndings rest
  | c :: rest => c :: normalizeLineEndings rest
  | [] => []

/-- `handleNegotiation` from TelnetClient.ts: the fixed reply table.
Commands: WILL=251, WONT=252, DO=253, DONT=254; options: ECHO=1, SGA=3,
TTYPE=24. Returns the 3-byte reply passed to `sendNegotiation`. -/
def handleNegotiation (cmd opt : Nat) : List Nat :=
  if cmd = 253 then        -- DO: server asks if we WILL do something
    if opt = 3 then [255, 251, opt]        -- accept Suppress Go Ahead
    else if opt = 24 then [255, 251, opt]  -- accept terminal type
    else if opt = 1 then [255, 252, opt]   -- refuse to echo
    else [255, 252, opt]                   -- refuse everything else
  else if cmd = 254 then [255, 252, opt]   -- DONT: acknowledge with WONT
  else if cmd = 251 then   -- WILL: server offers to do something
    if opt = 3 then [255, 253, opt]        -- accept Suppress Go Ahead
    else if opt = 1 then [255, 254, opt]   -- refuse server echo
    else [255, 254, opt]                   -- refuse everything else
  else if cmd = 252 then [255, 254, opt]   -- WONT: acknowledge with DONT
  else []

/-- The `for (let j = i + 2; ...)` scan for IAC SE inside `handleData`:
first index `j` with `start ≤ j < b.length - 1`, `b[j] = 255` and
`b[j+1] = 240`. Fuel-indexed so it evaluates by `decide`. -/
def findSEAux (b : List Nat) : Nat → Nat → Option Nat
  | 0, _ => none
  | fuel + 1, j =>
    if j < b.length - 1 then
      if b.getD j 0 = 255 ∧ b.getD (j + 1) 0 = 240 then some j
      else findSEAux b fuel (j + 1)
    else none

def findSE (b : List Nat) (start : Nat) : Option Nat :=
  findSEAux b (b.length + 1) start

/-- The text-emit step inside the scan loop: bytes `b[textStart..i)` are
decoded, CRLF-normalized, and emitted when nonempty (the `if (text)`
guard). -/
def emitText (b : List Nat) (textStart i : Nat) : List Event :=
  if i > textStart then
    let t := normalizeLineEndings ((b.drop textStart).take (i - textStart))
    if t ≠ [] then [Event.text t] else []
  else []

/-- The `while (i < this.buffer.length)` loop of `handleData`, translated
index for index.  Returns the events emitted inside the loop and the
final value of `textStart` (on an incomplete negotiation or
subnegotiation the loop `break`s with `textStart` unchanged, exactly as
in the source).  Fuel-indexed (`fuel ≥ b.length - i + 1` suffices; the
wrapper passes `b.length + 1`) so it evaluates by `decide`. -/
def scanLoop (b : List Nat) : Nat → Nat → Nat → List Event × Nat
  | 0, _, textStart => ([], textStart)
  | fuel + 1, i, textStart =>
    if i < b.length then
      if b.getD i 0 = 255 ∧ i + 1 < b.length then
        let pre := emitText b textStart i
        let cmd := b.getD (i + 1) 0
        if cmd = 255 then
          -- escaped IAC, emit as literal 255
          let r := scanLoop b fuel (i + 2) (i + 2)
          (pre ++ Event.text [255] :: r.1, r.2)
        else if cmd = 251 ∨ cmd = 252 ∨ cmd = 253 ∨ cmd = 254 then
          if i + 2 < b.length then
            let rep := Event.reply (handleNegotiation cmd (b.getD (i + 2) 0))
            let r := scanLoop b fuel (i + 3) (i + 3)
            (pre ++ rep :: r.1, r.2)
          else
            -- incomplete command: break with textStart unchanged
            (pre, textStart)
        else if cmd = 250 then
          match findSE b (i + 2) with
          | some seIndex =>
            let r := scanLoop b fuel (seIndex + 2) (seIndex + 2)
            (pre ++ r.1, r.2)
          | none =>
            -- incomplete subnegotiation: break with textStart unchanged
            (pre, textStart)
        else
          -- other command, skip 2 bytes
          let r := scanLoop b fuel (i + 2) (i + 2)
          (pre ++ r.1, r.2)
      else
        scanLoop b fuel (i + 1) textStart
    else ([], textStart)

/-- `handleData`: concatenate the retained buffer with the new chunk, run
the scan loop, then the tail block — which emits any remaining bytes
from `textStart` on as text and, in BOTH branches, resets the buffer to
empty (`this.buffer = Buffer.alloc(0)`). Returns (events, new buffer). -/
def handleData (buf data : List Nat) : List Event × List Nat :=
  let b := buf ++ data
  let r := scanLoop b (b.length + 1) 0 0
  if r.2 < b.length then
    let t := normalizeLineEndings (b.drop r.2)
    (r.1 ++ (if t ≠ [] then [Event.text t] else []), [])
  else (r.1, [])

/-- Feed a sequence of chunks through `handleData`, threading the
retained buffer, and collect all emitted events in order. -/
def feedAll (chunks : List (List Nat)) : List Event :=
  (chunks.foldl
    (fun acc d =>
      let r := handleData acc.2 d
      (acc.1 ++ r.1, r.2))
    (([], []) : List Event × List Nat)).1

/-- Number of literal byte-255 characters appearing in the emitted text
stream of an event list. -/
def countLit255 (evs : List Event) : Nat :=
  evs.foldl
    (fun n e =>
      match e with
      | Event.text t => n + t.count 255
      | Event.reply _ => n)
    0

end Telnet

end MudClient

namespace MudClient.Telnet

/-- C1 (code_bug evaluation): fragmentation transparency fails.  Feeding
the negotiation IAC WILL SGA split as [255,251] then [3] emits the two
partial-command bytes and then the option byte as text events and sends
no reply, whereas feeding [255,251,3] in one call sends the DO SGA reply
and emits no text.  The incomplete command is not retained: the tail of
`handleData` clears the buffer in both branches, contradicting the
"Incomplete command, wait for more data" comments in the source. -/
theorem telnet_fragmentation_bug :
    feedAll [[255, 251], [3]] = [Event.text [255, 251], Event.text [3]]
    ∧ feedAll [[255, 251, 3]] = [Event.reply [255, 253, 3]]
    ∧ feedAll [[255, 251], [3]] ≠ feedAll [[255, 251, 3]] := by decide

/-- C2 (code_bug evaluation): the self-escaped sequence 0xFF 0xFF yields
exactly one literal byte-255 character only when both bytes arrive in
the same feed call.  Split across two calls, each trailing lone 0xFF is
flushed as a text event by the buffer-clearing tail of `handleData`, so
the pair yields two byte-255 text emissions instead of one. -/
theorem telnet_selfescape_split_bug :
    countLit255 (feedAll [[255], [255]]) = 2
    ∧ feedAll [[255], [255]] = [Event.text [255], Event.text [255]]
    ∧ countLit255 (feedAll [[255, 255]]) = 1
    ∧ feedAll [[255, 255]] = [Event.text [255]] := by decide

/-- C3: the negotiation reply table.  DO suppress-go-ahead (3) and DO
terminal-type (24) are answered WILL; DO echo (1) is answered WONT;
WILL suppress-go-ahead is answered DO; WILL echo is answered DONT; and
every option outside the recognized set is refused symmetrically
(DO answered WONT, WILL answered DONT). -/
theorem negotiation_reply_table (opt : Nat) :
    handleNegotiation 253 3 = [255, 251, 3]
    ∧ handleNegotiation 253 24 = [255, 251, 24]
    ∧ handleNegotiation 253 1 = [255, 252, 1]
    ∧ handleNegotiation 251 3 = [255, 253, 3]
    ∧ handleNegotiation 251 1 = [255, 254, 1]
    ∧ (opt ≠ 1 → opt ≠ 3 → opt ≠ 24 →
        handleNegotiation 253 opt = [255, 252, opt]
        ∧ handleNegotiation 251 opt = [255, 254, opt]) := by
  refine ⟨rfl, rfl, rfl, rfl, rfl, fun h1 h3 h24 => ⟨?_, ?_⟩⟩ <;>
    simp [handleNegotiation, h1, h3, h24]

/-- Witness for `negotiation_reply_table` at the unrecognized option 31
(window-size, which the parser never handles in negotiation). -/
theorem negotiation_reply_table_witness :
    handleNegotiation 253 31 = [255, 252, 31]
    ∧ handleNegotiation 251 31 = [255, 254, 31] :=
  (negotiation_reply_table 31).2.2.2.2.2 (by decide) (by decide) (by decide)

end MudClient.Telnet

namespace MudClient.Classifier

/-! ## Message classifier (src/messages/MessageClassifier.ts)

Compiled regular expressions are modelled as oracle functions:
`matchLine` plays the role of `line.match(p.pattern)`, returning `none`
on no match and `some groups` on a match, where `groups` is the JS match
array (`groups[i]` is capture group `i`, `none` for a non-participating
group).  The continuation pattern's `.test` is a `String → Bool` oracle.
All control flow around these calls is translated from the source. -/

inductive MessageType where
  | tell | channel | say | other
deriving DecidableEq, Repr

structure ClassifiedMessage where
  type : MessageType
  raw : String
  channel : Option String := none
  sender : Option String := none
  isOutgoing : Option Bool := none
  isContinuation : Option Bool := none
deriving DecidableEq, Repr

/-- JS array indexing on a match array: out-of-range and non-participating
groups are both `undefined`. -/
def jsIndex (m : List (Option String)) (i : Nat) : Option String :=
  (m.get? i).getD none

structure CompiledTellPattern where
  matchLine : String → Option (List (Option String))
  senderGroup : Nat
  isOutgoing : Bool

structure CompiledChannelPattern where
  matchLine : String → Option (List (Option String))
  channelGroup : Nat
  contentGroup : Nat

structure CompiledContentPattern where
  matchLine : String → Option (List (Option String))
  senderGroup : Nat

structure ClassifiersConfig where
  tellPatterns : List CompiledTellPattern
  sayPatterns : List CompiledTellPattern
  channelPatterns : List CompiledChannelPattern
  channelContentPatterns : List CompiledContentPattern
  continuationPattern : Option (String → Bool)

/-- The `for (const p of this.tellPatterns)` loop of `classify`. -/
def tryTell (ps : List CompiledTellPattern) (line : String) :
    Option ClassifiedMessage :=
  match ps with
  | [] => none
  | p :: rest =>
    match p.matchLine line with
    | some m =>
      some { type := MessageType.tell, raw := line,
             sender := if p.senderGroup > 0 then jsIndex m p.senderGroup else none,
             isOutgoing := some p.isOutgoing }
    | none => tryTell rest line

/-- The `for (const p of this.sayPatterns)` loop of `classify`. -/
def trySay (ps : List CompiledTellPattern) (line : String) :
    Option ClassifiedMessage :=
  match ps with
  | [] => none
  | p :: rest =>
    match p.matchLine line with
    | some m =>
      some { type := MessageType.say, raw := line,
             sender := if p.senderGroup > 0 then jsIndex m p.senderGroup else none,
             isOutgoing := some p.isOutgoing }
    | none => trySay rest line

/-- Sender extraction from channel content: first matching content
pattern wins; an unmatched list leaves the sender undefined. -/
def extractSender (ps : List CompiledContentPattern) (content : String) :
    Option String :=
  match ps with
  | [] => none
  | p :: rest =>
    match p.matchLine content with
    | some m => jsIndex m p.senderGroup
    | none => extractSender rest content

/-- The `for (const cp of this.channelPatterns)` loop of `classify`.
(If the content group did not participate, the JS code would throw on
`content.match`; no shipped configuration hits this, and it is modelled
as an undefined sender.) -/
def tryChannel (cps : List CompiledChannelPattern)
    (ccps : List CompiledContentPattern) (line : String) :
    Option ClassifiedMessage :=
  match cps with
  | [] => none
  | cp :: rest =>
    match cp.matchLine line with
    | some m =>
      let channel := jsIndex m cp.channelGroup
      let sender :=
        match jsIndex m cp.contentGroup with
        | some content => extractSender ccps content
        | none => none
      some { type := MessageType.channel, raw := line,
             channel := channel, sender := sender }
    | none => tryChannel rest ccps line

/-- The non-continuation part of `classify`: tells, then says, then
channels, then the "other" fall-through which clears the stored last
classification. -/
def classifyFresh (cfg : ClassifiersConfig) (line : String) :
    ClassifiedMessage × Option ClassifiedMessage :=
  match tryTell cfg.tellPatterns line with
  | some m => (m, some m)
  | none =>
    match trySay cfg.sayPatterns line with
    | some m => (m, some m)
    | none =>
      match tryChannel cfg.channelPatterns cfg.channelContentPatterns line with
      | some m => (m, some m)
      | none => ({ type := MessageType.other, raw := line }, none)

/-- `classify` as a state-passing function: the state is the mutable
`lastClassification` field (`none` = cleared).  Returns the classified
message and the updated state. -/
def classify (cfg : ClassifiersConfig) (st : Option ClassifiedMessage)
    (line : String) : ClassifiedMessage × Option ClassifiedMessage :=
  match cfg.continuationPattern, st with
  | some contTest, some last =>
    if last.type ≠ MessageType.other ∧ contTest line = true then
      ({ type := last.type, raw := line, channel := last.channel,
         sender := last.sender, isOutgoing := last.isOutgoing,
         isContinuation := some true }, st)
    else classifyFresh cfg line
  | _, _ => classifyFresh cfg line

/-- `classifyLines`: split on newline and classify each line, sharing the
continuation state across the batch (JS `lines.map` mutating
`this.lastClassification`). -/
def classifyLinesGo (cfg : ClassifiersConfig) (st : Option ClassifiedMessage) :
    List String → List ClassifiedMessage × Option ClassifiedMessage
  | [] => ([], st)
  | l :: ls =>
    let r := classify cfg st l
    let rest := classifyLinesGo cfg r.2 ls
    (r.1 :: rest.1, rest.2)

def classifyLines (cfg : ClassifiersConfig) (st : Option ClassifiedMessage)
    (text : String) : List ClassifiedMessage × Option ClassifiedMessage :=
  classifyLinesGo cfg st (text.splitOn "\n")

theorem tryTell_eq_some {ps : List CompiledTellPattern} {line : String}
    {m : ClassifiedMessage} (h : tryTell ps line = some m) :
    m.type = MessageType.tell ∧ m.raw = line ∧ m.isContinuation = none := by
  induction ps with
  | nil => simp [tryTell] at h
  | cons p rest ih =>
    unfold tryTell at h
    cases hm : p.matchLine line with
    | some g =>
      rw [hm] at h
      cases h
      exact ⟨rfl, rfl, rfl⟩
    | none =>
      rw [hm] at h
      exact ih h

theorem trySay_eq_some {ps : List CompiledTellPattern} {line : String}
    {m : ClassifiedMessage} (h : trySay ps line = some m) :
    m.type = MessageType.say ∧ m.raw = line ∧ m.isContinuation = none := by
  induction ps with
  | nil => simp [trySay] at h
  | cons p rest ih =>
    unfold trySay at h
    cases hm : p.matchLine line with
    | some g =>
      rw [hm] at h
      cases h
      exact ⟨rfl, rfl, rfl⟩
    | none =>
      rw [hm] at h
      exact ih h

theorem tryChannel_eq_some {cps : List CompiledChannelPattern}
    {ccps : List CompiledContentPattern} {line : String}
    {m : ClassifiedMessage} (h : tryChannel cps ccps line = some m) :
    m.type = MessageType.channel ∧ m.raw = line ∧ m.isContinuation = none := by
  induction cps with
  | nil => simp [tryChannel] at h
  | cons cp rest ih =>
    unfold tryChannel at h
    cases hm : cp.matchLine line with
    | some g =>
      rw [hm] at h
      cases h
      exact ⟨rfl, rfl, rfl⟩
    | none =>
      rw [hm] at h
      exact ih h

theorem classifyFresh_fields (cfg : ClassifiersConfig) (line : String) :
    (classifyFresh cfg line).1.raw = line
    ∧ (classifyFresh cfg line).1.isContinuation = none := by
  unfold classifyFresh
  cases ht : tryTell cfg.tellPatterns line with
  | some m => exact ⟨(tryTell_eq_some ht).2.1, (tryTell_eq_some ht).2.2⟩
  | none =>
    cases hs : trySay cfg.sayPatterns line with
    | some m => exact ⟨(trySay_eq_some hs).2.1, (trySay_eq_some hs).2.2⟩
    | none =>
      cases hc : tryChannel cfg.channelPatterns cfg.channelContentPatterns line with
      | some m => exact ⟨(tryChannel_eq_some hc).2.1, (tryChannel_eq_some hc).2.2⟩
      | none => exact ⟨rfl, rfl⟩

/-- Falling through to "other" clears the stored last classification. -/
theorem classifyFresh_other_state {cfg : ClassifiersConfig} {line : String}
    (h : (classifyFresh cfg line).1.type = MessageType.other) :
    (classifyFresh cfg line).2 = none := by
  unfold classifyFresh at h ⊢
  cases ht : tryTell cfg.tellPatterns line with
  | some m =>
    rw [ht] at h
    exact absurd ((tryTell_eq_some ht).1.symm.trans h) (by decide)
  | none =>
    rw [ht] at h
    cases hs : trySay cfg.sayPatterns line with
    | some m =>
      rw [hs] at h
      exact absurd ((trySay_eq_some hs).1.symm.trans h) (by decide)
    | none =>
      rw [hs] at h
      cases hc : tryChannel cfg.channelPatterns cfg.channelContentPatterns line with
      | some m =>
        rw [hc] at h
        exact absurd ((tryChannel_eq_some hc).1.symm.trans h) (by decide)
      | none => rfl

/-- Equation lemma: with no continuation pattern, `classify` is the
fresh classification. -/
theorem classify_no_cont {cfg : ClassifiersConfig}
    (st : Option ClassifiedMessage) (line : String)
    (hc : cfg.continuationPattern = none) :
    classify cfg st line = classifyFresh cfg line := by
  unfold classify
  rw [hc]

/-- Equation lemma: with a cleared state the continuation branch can
never fire. -/
theorem classify_none_state (cfg : ClassifiersConfig) (line : String) :
    classify cfg none line = classifyFresh cfg line := by
  unfold classify
  cases cfg.continuationPattern <;> rfl

/-- Equation lemma: with a continuation pattern and a stored last
classification, `classify` reduces to the guard-and-inherit step. -/
theorem classify_some_some {cfg : ClassifiersConfig} (t : String → Bool)
    (last : ClassifiedMessage) (line : String)
    (hc : cfg.continuationPattern = some t) :
    classify cfg (some last) line =
      if last.type ≠ MessageType.other ∧ t line = true then
        ({ type := last.type, raw := line, channel := last.channel,
           sender := last.sender, isOutgoing := last.isOutgoing,
           isContinuation := some true }, some last)
      else classifyFresh cfg line := by
  unfold classify
  rw [hc]

theorem classify_other_state {cfg : ClassifiersConfig}
    {st : Option ClassifiedMessage} {line : String}
    (h : (classify cfg st line).1.type = MessageType.other) :
    (classify cfg st line).2 = none := by
  cases hc : cfg.continuationPattern with
  | none =>
    rw [classify_no_cont st line hc] at h ⊢
    exact classifyFresh_other_state h
  | some t =>
    cases st with
    | none =>
      rw [classify_none_state] at h ⊢
      exact classifyFresh_other_state h
    | some last =>
      rw [classify_some_some t last line hc] at h ⊢
      by_cases hcond : last.type ≠ MessageType.other ∧ t line = true
      · rw [if_pos hcond] at h
        exact absurd h hcond.1
      · rw [if_neg hcond] at h ⊢
        exact classifyFresh_other_state h

/-- C4: the continuation branch of `classify`.  (a) When a last
classification is stored, its type is not "other", and the line matches
the continuation pattern, the result inherits the previous message's
type, channel, sender and outgoing flag, carries `isContinuation =
true`, and the stored last classification is left unchanged.  (b) A
line classified immediately after a line that fell through to "other"
is never a continuation, because the fall-through clears the stored
last classification. -/
theorem classifier_continuation_behavior :
    (∀ (cfg : ClassifiersConfig) (prev : ClassifiedMessage)
        (t : String → Bool) (line : String),
        cfg.continuationPattern = some t →
        prev.type ≠ MessageType.other →
        t line = true →
        classify cfg (some prev) line =
          ({ type := prev.type, raw := line, channel := prev.channel,
             sender := prev.sender, isOutgoing := prev.isOutgoing,
             isContinuation := some true }, some prev))
    ∧ (∀ (cfg : ClassifiersConfig) (st : Option ClassifiedMessage)
        (line1 line2 : String),
        (classify cfg st line1).1.type = MessageType.other →
        (classify cfg ((classify cfg st line1).2) line2).1.isContinuation
          ≠ some true) := by
  constructor
  · intro cfg prev t line h1 h2 h3
    rw [classify_some_some t prev line h1, if_pos ⟨h2, h3⟩]
  · intro cfg st line1 line2 h
    rw [classify_other_state h, classify_none_state]
    rw [(classifyFresh_fields cfg line2).2]
    exact fun hc => Option.noConfusion hc

/-- Witness for `classifier_continuation_behavior` on a concrete
configuration (continuation shape: leading blank, as a computable
oracle) and concrete lines. -/
theorem classifier_continuation_behavior_witness :
    (Classifier.classify
        { tellPatterns := [], sayPatterns := [], channelPatterns := [],
          channelContentPatterns := [],
          continuationPattern := some (fun s => s.data.take 1 == [' ']) }
        (some { type := MessageType.tell, raw := "You tell Xal: hey",
                sender := some "Xal", isOutgoing := some true })
        "  more text" =
      ({ type := MessageType.tell, raw := "  more text",
         channel := none, sender := some "Xal", isOutgoing := some true,
         isContinuation := some true },
       some { type := MessageType.tell, raw := "You tell Xal: hey",
              sender := some "Xal", isOutgoing := some true }))
    ∧ (Classifier.classify
        { tellPatterns := [], sayPatterns := [], channelPatterns := [],
          channelContentPatterns := [],
          continuationPattern := some (fun s => s.data.take 1 == [' ']) }
        ((Classifier.classify
          { tellPatterns := [], sayPatterns := [], channelPatterns := [],
            channelContentPatterns := [],
            continuationPattern := some (fun s => s.data.take 1 == [' ']) }
          none "plain output").2)
        "  looks like a continuation").1.isContinuation ≠ some true := by
  constructor
  · exact classifier_continuation_behavior.1 _ _ _ _ rfl (by decide) rfl
  · exact classifier_continuation_behavior.2 _ none "plain output"
      "  looks like a continuation" rfl

/-- C9: in every branch, the returned message raw field is the input
line, character for character; and `classifyLines` preserves each split
line in order. -/
theorem classify_raw_preserved :
    (∀ (cfg : ClassifiersConfig) (st : Option ClassifiedMessage)
        (line : String), (classify cfg st line).1.raw = line)
    ∧ (∀ (cfg : ClassifiersConfig) (st : Option ClassifiedMessage)
        (text : String),
        (classifyLines cfg st text).1.map (fun m => m.raw) =
          text.splitOn "\n") := by
  have hraw : ∀ (cfg : ClassifiersConfig) (st : Option ClassifiedMessage)
      (line : String), (classify cfg st line).1.raw = line := by
    intro cfg st line
    cases hc : cfg.continuationPattern with
    | none =>
      rw [classify_no_cont st line hc]
      exact (classifyFresh_fields cfg line).1
    | some t =>
      cases st with
      | none =>
        rw [classify_none_state]
        exact (classifyFresh_fields cfg line).1
      | some last =>
        rw [classify_some_some t last line hc]
        by_cases hcond : last.type ≠ MessageType.other ∧ t line = true
        · rw [if_pos hcond]
        · rw [if_neg hcond]
          exact (classifyFresh_fields cfg line).1
  refine ⟨hraw, ?_⟩
  intro cfg st text
  unfold classifyLines
  generalize text.splitOn "\n" = ls
  induction ls generalizing st with
  | nil => rfl
  | cons l ls ih =>
    unfold classifyLinesGo
    simp only [List.map_cons, ih, hraw]

end MudClient.Classifier

namespace MudClient.Panes

open MudClient.Classifier

/-! ## Panes (src/panes/Pane.ts, src/panes/PaneManager.ts) -/

/-- Match one escape sequence `ESC [ [0-9;]* F` (final byte accepted by
`fin`) at the head of the character list; on success returns the matched
characters and the remainder.  The character classes `[0-9;]*` are
consumed greedily, exactly as the regexes in Pane.ts do (no final byte
is a digit or semicolon, so greedy matching is exact). -/
def splitAnsiAt (fin : Char → Bool) : List Char → Option (List Char × List Char)
  | '\x1b' :: '[' :: rest =>
    let params := rest.takeWhile (fun c => c.isDigit || c = ';')
    match rest.dropWhile (fun c => c.isDigit || c = ';') with
    | c :: r => if fin c then some ('\x1b' :: '[' :: (params ++ [c]), r) else none
    | [] => none
  | _ => none

/-- Global regex replacement with the empty string: delete every
occurrence of `ESC [ [0-9;]* F`, scanning left to right.  Fuel-indexed
(each step consumes at least one character; the wrappers pass the string
length) so it evaluates by `decide`. -/
def stripAnsiAux (fin : Char → Bool) : Nat → List Char → List Char
  | 0, l => l
  | _ + 1, [] => []
  | fuel + 1, c :: rest =>
    match splitAnsiAt fin (c :: rest) with
    | some (_, r) => stripAnsiAux fin fuel r
    | none => c :: stripAnsiAux fin fuel rest

/-- `stripPositioning` from Pane.ts: remove cursor-positioning sequences
`\x1b\[[0-9;]*[HABCDGJKsur]` (color sequences survive). -/
def stripPositioning (s : String) : String :=
  ⟨stripAnsiAux (fun c =>
    c = 'H' ∨ c = 'A' ∨ c = 'B' ∨ c = 'C' ∨ c = 'D' ∨ c = 'G' ∨ c = 'J'
    ∨ c = 'K' ∨ c = 's' ∨ c = 'u' ∨ c = 'r') s.data.length s.data⟩

/-- The visible length used by `render`: the length after removing every
SGR color sequence `\x1b\[[0-9;]*m`. -/
def visibleLen (s : String) : Nat :=
  (stripAnsiAux (fun c => c = 'm') s.data.length s.data).length

/-- JS `s.slice(0, e)`: a negative end counts from the end of the
string. -/
def jsSliceTo (s : String) (e : Int) : String :=
  if e < 0 then ⟨s.data.take (s.data.length - e.natAbs)⟩
  else ⟨s.data.take e.toNat⟩

/-- The per-line display transform of `Pane.render` (Pane.ts:434-438):
a line whose visible length exceeds the content width is replaced by
`text.slice(0, contentWidth - 3) + "..."` — the slice counts RAW
characters, escape sequences included. -/
def displayLine (contentWidth : Nat) (text : String) : String :=
  if visibleLen text > contentWidth
  then jsSliceTo text ((contentWidth : Int) - 3) ++ "..."
  else text

/-- JS `toLowerCase`, modelled for the ASCII channel names in play. -/
def jsToLower (s : String) : String := ⟨s.data.map Char.toLower⟩

/-- `channel.replace(/\*/g, "")`: remove every asterisk. -/
def replaceStars (s : String) : String := ⟨s.data.filter (fun c => c ≠ '*')⟩

structure PaneFilter where
  types : Option (List MessageType) := none
  channels : Option (List String) := none
  excludeChannels : Option (List String) := none
  pattern : Option (String → Bool) := none

/-- The type allow-list check of `Pane.accepts` (skipped when the list
is absent or empty). -/
def typeCheck (f : PaneFilter) (cl : ClassifiedMessage) : Bool :=
  match f.types with
  | some ts => if ts ≠ [] then ts.contains cl.type else true
  | none => true

/-- The channel allow-list check of `Pane.accepts`.  Only applies when
the list is present and nonempty.  A channel-typed message with a
truthy channel name is compared after asterisk-stripping and
lower-casing; a channel-typed message with an absent (or empty, hence
JS-falsy) channel name fails the allow-list; other types pass. -/
def whitelistCheck (f : PaneFilter) (cl : ClassifiedMessage) : Bool :=
  match f.channels with
  | some chs =>
    if chs ≠ [] then
      match cl.type with
      | MessageType.channel =>
        match cl.channel with
        | some ch =>
          if ch ≠ "" then
            chs.any (fun c => jsToLower c = jsToLower (replaceStars ch))
          else false
        | none => false
      | _ => true
    else true
  | none => true

/-- The channel deny-list check of `Pane.accepts`: a channel-typed
message with a truthy channel name listed (after normalization) fails;
everything else passes. -/
def blacklistCheck (f : PaneFilter) (cl : ClassifiedMessage) : Bool :=
  match f.excludeChannels with
  | some chs =>
    if chs ≠ [] then
      match cl.type with
      | MessageType.channel =>
        match cl.channel with
        | some ch =>
          if ch ≠ "" then
            !(chs.any (fun c => jsToLower c = jsToLower (replaceStars ch)))
          else true
        | none => true
      | _ => true
    else true
  | none => true

/-- The free-form content pattern of `Pane.accepts`, tested against the
raw line (regex modelled as an oracle). -/
def patternCheck (f : PaneFilter) (cl : ClassifiedMessage) : Bool :=
  match f.pattern with
  | some test => test cl.raw
  | none => true

/-- `Pane.accepts`: the four sequential early-return checks. -/
def accepts (f : PaneFilter) (cl : ClassifiedMessage) : Bool :=
  typeCheck f cl && whitelistCheck f cl && blacklistCheck f cl && patternCheck f cl

structure PaneMessage where
  text : String
  classified : ClassifiedMessage

/-- Runtime pane state; the fields `route`/`accepts`/`addMessage` touch.
(Rendering state — height, rows, scroll offset — and the wall-clock
timestamp are not needed by the routing claims.) -/
structure Pane where
  id : String
  enabled : Bool
  passthrough : Bool
  filter : PaneFilter
  messages : List PaneMessage
  maxMessages : Nat

def Pane.accepts (p : Pane) (cl : ClassifiedMessage) : Bool :=
  Panes.accepts p.filter cl

/-- `Pane.addMessage`: strip positioning sequences, append, evict the
oldest message past `maxMessages` (the `render()` side effect is
terminal output and is omitted). -/
def addMessage (text : String) (cl : ClassifiedMessage) (p : Pane) : Pane :=
  let cleaned := stripPositioning text
  let msgs := p.messages ++ [⟨cleaned, cl⟩]
  { p with messages := if msgs.length > p.maxMessages then msgs.tail else msgs }

/-- The loop of `PaneManager.route` over the enabled panes, threading the
`matched` and `anyPassthrough` flags; disabled panes are untouched. -/
def routeGo (text : String) (cl : ClassifiedMessage) :
    List Pane → Bool → Bool → List Pane × Bool × Bool
  | [], matched, anyPassthrough => ([], matched, anyPassthrough)
  | p :: ps, matched, anyPassthrough =>
    if p.enabled && p.accepts cl then
      let r := routeGo text cl ps true (anyPassthrough || p.passthrough)
      (addMessage text cl p :: r.1, r.2)
    else
      let r := routeGo text cl ps matched anyPassthrough
      (p :: r.1, r.2)

/-- `PaneManager.route`: deliver to every accepting enabled pane and
consume only if something matched and no accepting pane is
passthrough. -/
def route (text : String) (cl : ClassifiedMessage) (panes : List Pane) :
    List Pane × Bool :=
  let r := routeGo text cl panes false false
  (r.1, r.2.1 && !r.2.2)

theorem routeGo_eq (text : String) (cl : ClassifiedMessage) :
    ∀ (ps : List Pane) (m a : Bool),
      routeGo text cl ps m a =
        (ps.map (fun p => if p.enabled && p.accepts cl
                          then addMessage text cl p else p),
         m || ps.any (fun p => p.enabled && p.accepts cl),
         a || ps.any (fun p => (p.enabled && p.accepts cl) && p.passthrough)) := by
  intro ps
  induction ps with
  | nil => intro m a; simp [routeGo]
  | cons p ps ih =>
    intro m a
    unfold routeGo
    by_cases hacc : (p.enabled && p.accepts cl) = true
    · rw [if_pos hacc, ih]
      simp only [List.map_cons, List.any_cons, Prod.mk.injEq]
      refine ⟨?_, ?_, ?_⟩
      · rw [if_pos hacc]
      · rw [hacc]; cases m <;> simp
      · rw [hacc]
        cases a <;> cases p.passthrough <;>
          simp [Bool.or_assoc, Bool.or_comm, Bool.or_left_comm]
    · have hfalse : (p.enabled && p.accepts cl) = false :=
        Bool.eq_false_iff.mpr hacc
      rw [if_neg hacc, ih]
      simp only [List.map_cons, List.any_cons, Prod.mk.injEq]
      refine ⟨?_, ?_, ?_⟩
      · rw [if_neg hacc]
      · rw [hfalse]; simp
      · rw [hfalse]; simp

/-- C5: `route` delivers the message via `addMessage` to every enabled
pane whose filter accepts it (disabled panes are untouched), and the
returned "consumed" flag is true exactly when at least one enabled pane
accepted the message and no accepting pane is passthrough. -/
theorem route_spec (text : String) (cl : ClassifiedMessage)
    (panes : List Pane) :
    (route text cl panes).1 =
      panes.map (fun p => if p.enabled && p.accepts cl
                          then addMessage text cl p else p)
    ∧ ((route text cl panes).2 = true ↔
        ((∃ p ∈ panes, p.enabled = true ∧ p.accepts cl = true)
         ∧ ¬ ∃ p ∈ panes, p.enabled = true ∧ p.accepts cl = true
             ∧ p.passthrough = true)) := by
  unfold route
  rw [routeGo_eq]
  refine ⟨rfl, ?_⟩
  simp [List.any_eq_true, Bool.and_eq_true]

/-- Equation lemma for the whitelist check with a present channel list. -/
theorem whitelistCheck_eq_some {f : PaneFilter} {cs : List String}
    (m : ClassifiedMessage) (hcs : f.channels = some cs) :
    whitelistCheck f m =
      (if cs ≠ [] then
        match m.type with
        | MessageType.channel =>
          match m.channel with
          | some ch =>
            if ch ≠ "" then
              cs.any (fun c => jsToLower c = jsToLower (replaceStars ch))
            else false
          | none => false
        | _ => true
      else true) := by
  unfold whitelistCheck
  rw [hcs]

/-- The claim's normalization, modelled from the spec wording: strip a
single pair of SURROUNDING marker characters, then lower-case.  Stated
for comparison with the code's `replace(/\*/g, "")`, which strips every
asterisk wherever it occurs. -/
def specNormalizeChannel (c : String) : String :=
  jsToLower
    (if c.data.length ≥ 2 ∧ c.data.head? = some '*'
        ∧ c.data.getLast? = some '*'
     then ⟨(c.data.drop 1).dropLast⟩ else c)

/-- C6 counterexample: for the channel name "a*b" (an interior marker,
no surrounding pair) and allow-list ["ab"], the code accepts the message
— it compares the all-asterisks-stripped name "ab" — although the
claim's normalization leaves "a*b" unchanged, which is not listed, so
the claim says the message is rejected. -/
theorem channel_whitelist_counterexample :
    accepts { channels := some ["ab"] }
      { type := MessageType.channel, raw := "irrelevant",
        channel := some "a*b" } = true
    ∧ specNormalizeChannel "a*b" = "a*b"
    ∧ (["ab"].any (fun e => jsToLower e = specNormalizeChannel "a*b")) = false := by
  decide

/-- C6 amended: with a nonempty channel allow-list and a channel-typed
message, the code compares the channel name normalized by removing
EVERY asterisk and lower-casing against the lower-cased allow-list
entries; an unlisted channel is rejected, an absent channel name is
rejected, and a listed channel makes the allow-list transparent (the
remaining filters decide). -/
theorem channel_whitelist_behavior (f : PaneFilter) (cs : List String)
    (m : ClassifiedMessage) (c : String)
    (hcs : f.channels = some cs) (hne : cs ≠ [])
    (hty : m.type = MessageType.channel) :
    (m.channel = none → accepts f m = false)
    ∧ (m.channel = some c → c ≠ "" →
        cs.any (fun e => jsToLower e = jsToLower (replaceStars c)) = false →
        accepts f m = false)
    ∧ (m.channel = some c → c ≠ "" →
        cs.any (fun e => jsToLower e = jsToLower (replaceStars c)) = true →
        accepts f m = accepts { f with channels := none } m) := by
  refine ⟨?_, ?_, ?_⟩
  · intro hch
    have hwl : whitelistCheck f m = false := by
      rw [whitelistCheck_eq_some m hcs, if_pos hne, hty, hch]
    unfold accepts
    rw [hwl]
    simp
  · intro hch hcne hany
    have hwl : whitelistCheck f m = false := by
      rw [whitelistCheck_eq_some m hcs, if_pos hne, hty, hch]
      simp only [ne_eq, hcne, not_false_eq_true, if_true]
      exact hany
    unfold accepts
    rw [hwl]
    simp
  · intro hch hcne hany
    have hwl : whitelistCheck f m = true := by
      rw [whitelistCheck_eq_some m hcs, if_pos hne, hty, hch]
      simp only [ne_eq, hcne, not_false_eq_true, if_true]
      exact hany
    unfold accepts
    rw [hwl]
    rfl

/-- Witness for `channel_whitelist_behavior` at concrete inputs:
allow-list ["chaos"], messages with no channel name, with the unlisted
channel "gossip", and with the listed channel "*Chaos*". -/
theorem channel_whitelist_behavior_witness :
    accepts { channels := some ["chaos"] }
      { type := MessageType.channel, raw := "r1", channel := none } = false
    ∧ accepts { channels := some ["chaos"] }
        { type := MessageType.channel, raw := "r2",
          channel := some "gossip" } = false
    ∧ accepts { channels := some ["chaos"] }
        { type := MessageType.channel, raw := "r3",
          channel := some "*Chaos*" } = true := by
  refine ⟨?_, ?_, ?_⟩
  · exact (channel_whitelist_behavior _ ["chaos"] _ "" rfl (by decide) rfl).1 rfl
  · exact (channel_whitelist_behavior _ ["chaos"] _ "gossip" rfl (by decide)
      rfl).2.1 rfl (by decide) (by decide)
  · exact ((channel_whitelist_behavior _ ["chaos"] _ "*Chaos*" rfl (by decide)
      rfl).2.2 rfl (by decide) (by decide)).trans (by decide)

/-! ### Render truncation (Pane.render, C7) -/

/-- Modelled from the spec wording of the claim: truncate to the first
`n` VISIBLE characters, keeping escape sequences in place (escape
sequences do not count toward the budget).  Stated for comparison with
the code's raw `text.slice(0, contentWidth - 3)`. -/
def takeVisibleAux : Nat → Nat → List Char → List Char
  | 0, _, _ => []
  | fuel + 1, n, l =>
    match l with
    | [] => []
    | c :: rest =>
      match splitAnsiAt (fun ch => ch = 'm') l with
      | some (seq, r) => seq ++ takeVisibleAux fuel n r
      | none => if n = 0 then [] else c :: takeVisibleAux fuel (n - 1) rest

def specDisplayLine (contentWidth : Nat) (text : String) : String :=
  if visibleLen text > contentWidth
  then String.mk (takeVisibleAux text.data.length (contentWidth - 3) text.data)
       ++ "..."
  else text

/-- C7 counterexample: a red-colored line of visible length 12 in a pane
of content width 10.  The code truncates at 7 RAW characters — eating
five characters of the color escape sequence and keeping only "ab" —
whereas the claim's visible-character truncation keeps "abcdefg" after
the escape sequence.  The two disagree. -/
theorem render_truncation_counterexample :
    displayLine 10 "\x1b[31mabcdefghijkl" = "\x1b[31mab..."
    ∧ specDisplayLine 10 "\x1b[31mabcdefghijkl" = "\x1b[31mabcdefg..."
    ∧ displayLine 10 "\x1b[31mabcdefghijkl"
        ≠ specDisplayLine 10 "\x1b[31mabcdefghijkl" := by decide

/-- C7 amended: a stored line whose visible length (counting only
characters outside SGR escape sequences) exceeds the content width is
displayed as the first `contentWidth - 3` RAW characters (escape
sequences included in the count) followed by the 3-character ellipsis;
a line whose visible length fits is displayed unchanged. -/
theorem render_truncation (w : Nat) (t : String) (hw : 3 ≤ w) :
    (visibleLen t > w → displayLine w t = String.mk (t.data.take (w - 3)) ++ "...")
    ∧ (visibleLen t ≤ w → displayLine w t = t) := by
  constructor
  · intro h
    unfold displayLine
    rw [if_pos h]
    unfold jsSliceTo
    rw [if_neg (by omega : ¬ ((w : Int) - 3 < 0))]
    have he : ((w : Int) - 3).toNat = w - 3 := by omega
    rw [he]
  · intro h
    unfold displayLine
    rw [if_neg (by omega : ¬ visibleLen t > w)]

/-- Witness for `render_truncation` at content width 10, on a long
colored line and on a short line. -/
theorem render_truncation_witness :
    displayLine 10 "\x1b[33mhello world wide" = "\x1b[33mhe..."
    ∧ displayLine 10 "hi there" = "hi there" := by
  constructor
  · exact ((render_truncation 10 "\x1b[33mhello world wide" (by decide)).1
      (by decide)).trans (by decide)
  · exact (render_truncation 10 "hi there" (by decide)).2 (by decide)

end MudClient.Panes

namespace MudClient.TabCompletion

open MudClient.Panes (jsToLower)

/-! ## Completion cycler (src/input/TabCompletion.ts) -/

/-- The four private fields of the `TabCompletion` class.  `matchIndex`
is an `Int` because −1 means "showing the original input". -/
structure TabState where
  originalInput : String
  lastInput : String
  lastMatches : List String
  matchIndex : Int
deriving DecidableEq, Repr

/-- The field initializers of the class. -/
def initState : TabState :=
  { originalInput := "", lastInput := "", lastMatches := [], matchIndex := -1 }

/-- JS `input.trimEnd()` at character level. -/
def jsTrimEnd (s : String) : String :=
  String.mk (s.data.reverse.dropWhile Char.isWhitespace).reverse

/-- `trimmed.slice(0, lastIndexOf(" ") + 1)`: everything up to and
including the last space; empty when there is no space. -/
def pfxOf (trimmed : String) : String :=
  String.mk (trimmed.data.reverse.dropWhile (fun c => c ≠ ' ')).reverse

/-- `trimmed.slice(lastIndexOf(" ") + 1)`: the trailing word after the
last space (the whole trimmed input when there is no space). -/
def partialOf (trimmed : String) : String :=
  String.mk (trimmed.data.reverse.takeWhile (fun c => c ≠ ' ')).reverse

/-- `word.toLowerCase().startsWith(lowerPartial)`, kernel-computable. -/
def strStartsWith (s p : String) : Bool :=
  p.data.isPrefixOf s.data

/-- The sort comparator of `complete`: length ascending, then
lexicographic (`localeCompare` modelled as code-point order, which
coincides with it on the all-lower-case ASCII candidate sets in play). -/
def matchLE (a b : String) : Bool :=
  if a.length ≠ b.length then decide (a.length < b.length)
  else decide (a ≤ b)

/-- The comparator as a decidable relation for the stable sort. -/
def matchRel (a b : String) : Prop := matchLE a b = true

instance : DecidableRel matchRel := fun a b => by
  unfold matchRel; infer_instance

/-- The filter-and-sort step of `complete` (lines 41-47): candidates
whose lower-cased form has the lower-cased partial as a true prefix,
stably sorted by the comparator (JS `Array.prototype.sort` is stable;
`List.insertionSort` inserts earlier elements before ties, which is the
same stable order). -/
def completeMatches (partialWord : String) (words : List String) :
    List String :=
  List.insertionSort matchRel
    (words.filter (fun w =>
      strStartsWith (jsToLower w) (jsToLower partialWord)
      && jsToLower w ≠ jsToLower partialWord))

/-- `TabCompletion.complete`, as a pure function of the state. -/
def complete (input : String) (words : List String) (st : TabState) :
    String × TabState :=
  if partialOf (jsTrimEnd input) = "" then (input, st)
  else if input = st.lastInput ∧ st.lastMatches ≠ [] then
    if st.matchIndex + 1 ≥ (st.lastMatches.length : Int) then
      -- cycle back to original
      (st.originalInput,
       { st with matchIndex := -1, lastInput := st.originalInput })
    else
      (pfxOf (jsTrimEnd input)
         ++ st.lastMatches.getD (st.matchIndex + 1).toNat "",
       { st with matchIndex := st.matchIndex + 1,
                 lastInput := pfxOf (jsTrimEnd input)
                   ++ st.lastMatches.getD (st.matchIndex + 1).toNat "" })
  else
    match completeMatches (partialOf (jsTrimEnd input)) words with
    | [] => (input, st)
    | m0 :: _ =>
      (pfxOf (jsTrimEnd input) ++ m0,
       { originalInput := input,
         lastInput := pfxOf (jsTrimEnd input) ++ m0,
         lastMatches := completeMatches (partialOf (jsTrimEnd input)) words,
         matchIndex := 0 })

/-- The comparator, unfolded: length ascending, ties by lexicographic
order. -/
theorem matchLE_iff (a b : String) :
    matchLE a b = true ↔
      (a.length < b.length ∨ (a.length = b.length ∧ a ≤ b)) := by
  unfold matchLE
  by_cases h : a.length = b.length
  · simp [h]
  · simp only [ne_eq, h, not_false_eq_true, if_true, decide_eq_true_iff]
    constructor
    · exact Or.inl
    · rintro (h' | ⟨h', _⟩)
      · exact h'
      · exact h'.elim

instance : IsTotal String matchRel where
  total a b := by
    unfold matchRel
    rw [matchLE_iff, matchLE_iff]
    rcases Nat.lt_trichotomy a.length b.length with h | h | h
    · exact Or.inl (Or.inl h)
    · rcases le_total a b with h' | h'
      · exact Or.inl (Or.inr ⟨h, h'⟩)
      · exact Or.inr (Or.inr ⟨h.symm, h'⟩)
    · exact Or.inr (Or.inl h)

instance : IsTrans String matchRel where
  trans a b c hab hbc := by
    unfold matchRel at hab hbc ⊢
    rw [matchLE_iff] at hab hbc ⊢
    rcases hab with h1 | ⟨h1, h1'⟩ <;> rcases hbc with h2 | ⟨h2, h2'⟩
    · exact Or.inl (h1.trans h2)
    · exact Or.inl (h2 ▸ h1)
    · exact Or.inl (h1 ▸ h2)
    · exact Or.inr ⟨h1.trans h2, le_trans h1' h2'⟩

/-- C8 counterexample: for candidates ["goblin","guard","gold"] and
input "go", the second completion is "goblin", not "guard" as the
claim's concrete sequence says — "guard" does not have "go" as a
prefix, so it is never in the match list. -/
theorem complete_cycle_counterexample :
    (complete "go" ["goblin", "guard", "gold"] initState).1 = "gold"
    ∧ (complete "gold" ["goblin", "guard", "gold"]
        (complete "go" ["goblin", "guard", "gold"] initState).2).1 = "goblin"
    ∧ (complete "gold" ["goblin", "guard", "gold"]
        (complete "go" ["goblin", "guard", "gold"] initState).2).1
      ≠ "guard" := by decide

/-- C8 amended: (i) for candidates ["goblin","guard","gold"] and partial
"go" the successive results are "gold", then "goblin", then the original
input "go" ("guard" never matches); an exact existing word is never
offered as its own completion; (ii) the match list consists exactly of
the candidates with the partial as a true case-insensitive prefix,
excluding case-insensitive equals; (iii) it is sorted by length
ascending then lexicographically; (iv)/(v) a repeated call whose input
equals the previous output advances the index through the list in
order, and past the last match reverts to the original pre-completion
input. -/
theorem tab_complete_cycle :
    ((complete "go" ["goblin", "guard", "gold"] initState).1 = "gold"
      ∧ (complete "gold" ["goblin", "guard", "gold"]
          (complete "go" ["goblin", "guard", "gold"] initState).2).1 = "goblin"
      ∧ (complete "goblin" ["goblin", "guard", "gold"]
          (complete "gold" ["goblin", "guard", "gold"]
            (complete "go" ["goblin", "guard", "gold"] initState).2).2).1 = "go"
      ∧ complete "goblin" ["goblin", "guard", "gold"] initState
          = ("goblin", initState))
    ∧ (∀ (w pw : String) (words : List String),
        w ∈ completeMatches pw words ↔
          (w ∈ words
           ∧ strStartsWith (jsToLower w) (jsToLower pw) = true
           ∧ jsToLower w ≠ jsToLower pw))
    ∧ (∀ (pw : String) (words : List String),
        (completeMatches pw words).Pairwise
          (fun a b => a.length < b.length ∨ (a.length = b.length ∧ a ≤ b)))
    ∧ (∀ (input : String) (words : List String) (st : TabState),
        partialOf (jsTrimEnd input) ≠ "" →
        input = st.lastInput →
        st.lastMatches ≠ [] →
        st.matchIndex + 1 < (st.lastMatches.length : Int) →
        complete input words st =
          (pfxOf (jsTrimEnd input)
             ++ st.lastMatches.getD (st.matchIndex + 1).toNat "",
           { st with matchIndex := st.matchIndex + 1,
                     lastInput := pfxOf (jsTrimEnd input)
                       ++ st.lastMatches.getD (st.matchIndex + 1).toNat "" }))
    ∧ (∀ (input : String) (words : List String) (st : TabState),
        partialOf (jsTrimEnd input) ≠ "" →
        input = st.lastInput →
        st.lastMatches ≠ [] →
        st.matchIndex + 1 ≥ (st.lastMatches.length : Int) →
        complete input words st =
          (st.originalInput,
           { st with matchIndex := -1,
                     lastInput := st.originalInput })) := by
  refine ⟨by decide, ?_, ?_, ?_, ?_⟩
  · intro w pw words
    unfold completeMatches
    rw [(List.perm_insertionSort matchRel _).mem_iff, List.mem_filter]
    simp [Bool.and_eq_true, decide_eq_true_iff]
  · intro pw words
    have hs := List.sorted_insertionSort matchRel
      (words.filter (fun w =>
        strStartsWith (jsToLower w) (jsToLower pw)
        && jsToLower w ≠ jsToLower pw))
    unfold completeMatches
    exact List.Pairwise.imp (fun hab => (matchLE_iff _ _).mp hab) hs
  · intro input words st hpw hin hnm hlt
    unfold complete
    rw [if_neg hpw, if_pos ⟨hin, hnm⟩, if_neg (not_le.mpr hlt)]
  · intro input words st hpw hin hnm hge
    unfold complete
    rw [if_neg hpw, if_pos ⟨hin, hnm⟩, if_pos hge]

/-- Witness for `tab_complete_cycle`: the cycle-advance and revert steps
exercised on the concrete "go" example (second and third calls). -/
theorem tab_complete_cycle_witness :
    complete "gold" ["goblin", "guard", "gold"]
        { originalInput := "go", lastInput := "gold",
          lastMatches := ["gold", "goblin"], matchIndex := 0 } =
      ("goblin",
       { originalInput := "go", lastInput := "goblin",
         lastMatches := ["gold", "goblin"], matchIndex := 1 })
    ∧ complete "goblin" ["goblin", "guard", "gold"]
        { originalInput := "go", lastInput := "goblin",
          lastMatches := ["gold", "goblin"], matchIndex := 1 } =
      ("go",
       { originalInput := "go", lastInput := "go",
         lastMatches := ["gold", "goblin"], matchIndex := -1 }) := by
  constructor
  · exact (tab_complete_cycle.2.2.2.1 "gold" ["goblin", "guard", "gold"]
      { originalInput := "go", lastInput := "gold",
        lastMatches := ["gold", "goblin"], matchIndex := 0 }
      (by decide) (by decide) (by decide) (by decide)).trans (by decide)
  · exact (tab_complete_cycle.2.2.2.2 "goblin" ["goblin", "guard", "gold"]
      { originalInput := "go", lastInput := "goblin",
        lastMatches := ["gold", "goblin"], matchIndex := 1 }
      (by decide) (by decide) (by decide) (by decide)).trans (by decide)

/-- C10: an input with no non-whitespace character (so the trailing
partial word is empty after trimming) is returned unchanged, and the
cycler state — originalInput, lastInput, stored matches, match index —
is left untouched. -/
theorem complete_whitespace_frame (input : String) (words : List String)
    (st : TabState) (h : input.data.all Char.isWhitespace = true) :
    complete input words st = (input, st) := by
  have htrim : jsTrimEnd input = "" := by
    unfold jsTrimEnd
    have hd : input.data.reverse.dropWhile Char.isWhitespace = [] := by
      rw [List.dropWhile_eq_nil_iff]
      intro x hx
      exact List.all_eq_true.mp h x (List.mem_reverse.mp hx)
    rw [hd]
    rfl
  unfold complete
  rw [htrim]
  rw [if_pos (show partialOf "" = "" from rfl)]

/-- Witness for `complete_whitespace_frame`: blank input against a
mid-cycle state. -/
theorem complete_whitespace_frame_witness :
    complete "   " ["gold", "goblin"]
        { originalInput := "go", lastInput := "gold",
          lastMatches := ["gold", "goblin"], matchIndex := 0 } =
      ("   ",
       { originalInput := "go", lastInput := "gold",
         lastMatches := ["gold", "goblin"], matchIndex := 0 }) :=
  complete_whitespace_frame "   " ["gold", "goblin"] _ (by decide)

end MudClient.TabCompletion
